import Mathlib

/-!
# Verification of the cactus-runner test-procedure execution engine

A shallow embedding of the event/listener matching state machine, the step
lifecycle tracker and the interval-timeline resolution logic of the
cactus-runner repository, together with theorems settling the specified
behavioural properties.

Conventions of the embedding:
* timestamps and durations are integers over a single time axis (Python
  `datetime`/`timedelta` values are exact integer counts of microseconds,
  so their arithmetic and comparison is that of ℤ);
* Python `None` becomes `Option.none`;
* raised exceptions become `Except.error` values;
* dictionaries become association lists (`List (key × value)`).
-/

set_option linter.unusedVariables false
set_option maxRecDepth 4000

namespace CactusRunner

/-- A value stored in an event's `parameters` dictionary: either numeric
(ints, datetimes and durations all compare numerically) or a string
(e.g. the `endpoint` parameter). -/
inductive ParamVal where
  | num (n : ℤ)
  | str (s : String)
  deriving DecidableEq, Repr

/-- An event's parameter dictionary, as an association list. -/
abbrev Params := List (String × ParamVal)

/-- An `Event` from `cactus_test_definitions`: a type tag plus a parameter
dictionary.  Python dataclass equality compares both fields. -/
structure Event where
  type : String
  parameters : Params
  deriving DecidableEq, Repr

/-- An action bound to a listener.  Modelled from the spec: `applyActions`
runs the listener's actions in order; `enable-listeners` marks the named
steps' listeners enabled with the current timestamp and `remove-listeners`
deletes the named steps' listener bindings (the source module
`cactus_runner/app/action.py` is not part of the provided sources; only the
listener-mutating action kinds that the engine claims need are modelled). -/
inductive Action where
  | enableListeners (steps : List String)
  | removeListeners (steps : List String)
  deriving DecidableEq, Repr

/-- `models.Listener`: runtime binding of one step to one event pattern,
its action list and its enable marker (`enabled_time`, `none` = disabled). -/
structure Listener where
  step : String
  event : Event
  actions : List Action
  enabled_time : Option ℤ := none
  deriving DecidableEq, Repr

/-- Truthiness of the listener's enable marker (the `listener.enabled`
test in `event.py` / `main.py`): enabled iff the marker is non-null. -/
def Listener.enabled (l : Listener) : Bool :=
  l.enabled_time.isSome

/-- `cactus_schema.runner.StepStatus`. -/
inductive StepStatus where
  | PENDING
  | ACTIVE
  | RESOLVED
  deriving DecidableEq, Repr

/-- The running test procedure (`models.ActiveTestProcedure`), restricted to
the fields the engine mutates: the live listener list, the per-step status
map and the terminal `finished_zip_data` marker (the zip payload itself is
opaque, so it is modelled by an arbitrary numeric token). -/
structure ActiveTestProcedure where
  listeners : List Listener
  step_status : List (String × StepStatus)
  finished_zip_data : Option Nat := none
  deriving DecidableEq, Repr

/-- `models.ActiveTestProcedure.is_finished`: `finished_zip_data is not None`. -/
def ActiveTestProcedure.is_finished (p : ActiveTestProcedure) : Bool :=
  p.finished_zip_data.isSome

/-- Python dict assignment `m[k] = v` on an association list: overwrite the
existing binding if present, otherwise append. -/
def assocSet (m : List (String × StepStatus)) (k : String) (v : StepStatus) :
    List (String × StepStatus) :=
  if (m.lookup k).isSome then
    m.map (fun kv => if kv.1 = k then (k, v) else kv)
  else
    m ++ [(k, v)]

/-- One action applied to the running procedure (spec §4.3). -/
def applyAction (now : ℤ) (p : ActiveTestProcedure) (a : Action) :
    ActiveTestProcedure :=
  match a with
  | .enableListeners steps =>
      { p with
        listeners := p.listeners.map (fun l =>
          if steps.contains l.step then { l with enabled_time := some now } else l) }
  | .removeListeners steps =>
      { p with listeners := p.listeners.filter (fun l => !steps.contains l.step) }

/-- `apply_actions`: run the matched listener's actions in order,
sequentially (spec §4.3; the source module is not part of the provided
sources, so the state effect is the spec-modelled one above). -/
def apply_actions (now : ℤ) (l : Listener) (p : ActiveTestProcedure) :
    ActiveTestProcedure :=
  l.actions.foldl (applyAction now) p

/-- The matching loop of `event.handle_event`: scan the listener list in
order and return the first listener that is enabled and whose event equals
the incoming event (Python `listener.enabled and listener.event == event`). -/
def matchListener (listeners : List Listener) (ev : Event) : Option Listener :=
  listeners.find? (fun l => l.enabled && decide (l.event = ev))

/-- `event.handle_event` (src/cactus_runner/app/event.py): return the first
enabled listener matching the event, after applying its actions; `none` and
an unchanged procedure when no enabled listener matches. -/
def handle_event (ev : Event) (now : ℤ) (p : ActiveTestProcedure) :
    Option Listener × ActiveTestProcedure :=
  match matchListener p.listeners ev with
  | some l => (some l, apply_actions now l p)
  | none => (none, p)

/-- Modelled from the spec: `handleEvent` composing matcher and checks.  The
checks-evaluating variant of `handle_event` (the one exercised by
`test_handle_event_with_checks_failing`) is not part of the provided
sources; per spec §4.2 it "additionally evaluates 'all
preconditions/criteria currently still pass' before accepting a match; if
checks fail, no listener is matched and no actions fire". -/
def handle_event_checked (checksPass : Bool) (ev : Event) (now : ℤ)
    (p : ActiveTestProcedure) : Option Listener × ActiveTestProcedure :=
  match checksPass with
  | true => handle_event ev now p
  | false => (none, p)

/-- The `WaitEventError` exception of `main.py` (raised when an enabled
"wait" listener misses the `wait_start_timestamp` or `duration_seconds`
parameter).  `badParam` stands for the Python `TypeError` a non-numeric
parameter value would provoke in the comparison. -/
inductive WaitEventError where
  | missingStart
  | missingDuration
  | badParam
  deriving DecidableEq, Repr

/-- The step-status update of `main.periodic_task`:
`active_test_procedure.step_status[listener.step] = StepStatus.RESOLVED`. -/
def assocSetStatus (p : ActiveTestProcedure) (step : String) (st : StepStatus) :
    ActiveTestProcedure :=
  { p with step_status := assocSet p.step_status step st }

/-- The wait-expiry test of `main.periodic_task`:
`now - wait_start >= timedelta(seconds=wait_duration_sec)`, with the
duration expressed in the same time unit as the timestamps. -/
def waitExpired (now wait_start duration : ℤ) : Bool :=
  decide (duration ≤ now - wait_start)

/-- The listener loop of `main.periodic_task`, processing the given
listeners in order against the procedure state `p`. -/
def periodicTaskGo (now : ℤ) : List Listener → ActiveTestProcedure →
    Except WaitEventError ActiveTestProcedure
  | [], p => .ok p
  | l :: rest, p =>
    if l.enabled && decide (l.event.type = "wait") then
      match l.event.parameters.lookup "wait_start_timestamp" with
      | none => .error .missingStart
      | some (.str _) => .error .badParam
      | some (.num ws) =>
        match l.event.parameters.lookup "duration_seconds" with
        | none => .error .missingDuration
        | some (.str _) => .error .badParam
        | some (.num d) =>
          if waitExpired now ws d then
            periodicTaskGo now rest
              (assocSetStatus (apply_actions now l p) l.step .RESOLVED)
          else
            periodicTaskGo now rest p
    else
      periodicTaskGo now rest p

/-- One pass of the body of `main.periodic_task` over the procedure's
listeners: every enabled "wait" listener whose wait period has expired has
its actions applied and its step marked `RESOLVED`; a listener missing the
start timestamp or the duration raises `WaitEventError`.  (The Python loop
iterates the live listener list; the model iterates the listener list as it
was at the start of the pass.) -/
def periodic_task_pass (now : ℤ) (p : ActiveTestProcedure) :
    Except WaitEventError ActiveTestProcedure :=
  periodicTaskGo now p.listeners p

/-!
## Interval Timeline Engine

Modelled from the spec: the module `cactus_runner/app/timeline.py`
(`highest_priority_entity`, `generate_offset_watt_values`) is not part of
the provided sources — only its tests and callers are — so the definitions
below follow spec §4.5 and §3 ("Timeline Interval Record").
-/

/-- Modelled from the spec: a timeline interval record's payload — a
priority class ("currently active" outranks "archived/superseded"), a
last-changed timestamp, and the numeric fields the extractors read
(engineering watt values; the value/multiplier and decimal truncation
semantics are handled by `resolve_value_multiplier` below). -/
structure TimelineEntity where
  archived : Bool
  changed_time : ℤ
  import_limit_active_watts : Option ℤ := none
  export_limit_watts : Option ℤ := none
  deriving DecidableEq, Repr

/-- Modelled from the spec: the priority order of spec §4.5 step 4 —
`x` beats the current best iff `x` is active and the best archived, or both
are in the same class and `x` has a strictly greater last-changed
timestamp (strictness keeps the earlier record on ties, a deterministic
tie-break). -/
def beats (x best : TimelineEntity) : Bool :=
  (!x.archived && best.archived) ||
    (x.archived == best.archived && decide (best.changed_time < x.changed_time))

/-- Modelled from the spec: `highest_priority_entity` — resolve the single
highest-priority record of a non-empty candidate collection (active
outranks archived regardless of recency; greatest last-changed wins within
a class); an empty collection fails with a "no entities" error instead of
returning none. -/
def highest_priority_entity : List TimelineEntity → Except String TimelineEntity
  | [] => .error "no entities"
  | e :: rest => .ok (rest.foldl (fun best x => if beats x best then x else best) e)

/-- Modelled from the spec: one interval-tree member — a record tagged with
the half-open time range `[live_begin, live_end)` it was live for. -/
structure TimelineInterval where
  live_begin : ℤ
  live_end : ℤ
  entity : TimelineEntity
  deriving DecidableEq, Repr

/-- Modelled from the spec: the records whose live range contains the query
instant (spec §4.5 step 3). -/
def overlappingEntities (records : List TimelineInterval) (t : ℤ) :
    List TimelineEntity :=
  (records.filter (fun r => decide (r.live_begin ≤ t) && decide (t < r.live_end))).map
    (·.entity)

/-- Modelled from the spec: the number of consecutive sub-intervals of
length `interval_length_seconds` partitioning `[start, end)`, the last one
possibly short but still counted — `ceil((end - start) / L)` computed on
integers. -/
def sliceCount (startT endT : ℤ) (interval_length_seconds : ℕ) : ℕ :=
  ((endT - startT).toNat + interval_length_seconds - 1) / interval_length_seconds

/-- Modelled from the spec: `generate_offset_watt_values` — partition
`[start, end)` into `sliceCount` sub-intervals, query the records
overlapping each slice's start instant, resolve the winner via
`highest_priority_entity` (an empty candidate set yields null), and apply
each extractor to the winner; one list of numeric-or-null values per
extractor, aligned to slice index. -/
def generate_offset_watt_values (records : List TimelineInterval)
    (startT endT : ℤ) (interval_length_seconds : ℕ)
    (extractors : List (TimelineEntity → Option ℤ)) : List (List (Option ℤ)) :=
  extractors.map (fun f =>
    (List.range (sliceCount startT endT interval_length_seconds)).map (fun i =>
      match highest_priority_entity
          (overlappingEntities records (startT + (i : ℤ) * interval_length_seconds)) with
      | .error _ => none
      | .ok w => f w))

/-!
## Value/multiplier resolution (`status.py`)

`status._resolve_value_multiplier` computes `int(value * (10 ** multiplier))`.
For a `None` or non-negative multiplier the whole computation stays in
Python's arbitrary-precision integers.  For a negative multiplier
`10 ** multiplier` is an IEEE-754 binary64 float, so the product is
computed in double precision: the int operand is converted to a double
(raising `OverflowError` beyond the finite range) and the product is
rounded to nearest once more, before `int()` truncates the double toward
zero.  The model implements binary64 arithmetic exactly — round to
nearest, ties to even, 53-bit significands, gradual underflow below
`2^-1022` — representing each double as a dyadic pair `(m, e)` standing
for `m * 2^e`, which keeps every step in integer arithmetic.
-/

/-- One step of a fixed binary search for `⌊log₂ n⌋`: widen the candidate
exponent `e` by `k` when `2^(e+k) ≤ n`. -/
def log2Probe (n : ℕ) (e k : ℕ) : ℕ :=
  if Nat.shiftLeft 1 (e + k) ≤ n then e + k else e

/-- `⌊log₂ n⌋` for `0 < n < 2^2048` (and `0` at `n = 0`), by a fixed
eleven-probe binary search.  Above the cap the result saturates at `2047`,
which callers only reach for magnitudes far beyond the binary64 overflow
threshold, where the clamp cannot change any outcome. -/
def natLog2 (n : ℕ) : ℕ :=
  let e := log2Probe n 0 1024
  let e := log2Probe n e 512
  let e := log2Probe n e 256
  let e := log2Probe n e 128
  let e := log2Probe n e 64
  let e := log2Probe n e 32
  let e := log2Probe n e 16
  let e := log2Probe n e 8
  let e := log2Probe n e 4
  let e := log2Probe n e 2
  let e := log2Probe n e 1
  e

/-- Round the fraction `p / q` to the nearest integer, ties to even. -/
def roundNearestEven (p q : ℕ) : ℕ :=
  let d := p / q
  let r := p % q
  if 2 * r < q then d
  else if q < 2 * r then d + 1
  else if d % 2 = 0 then d else d + 1

/-- `⌊log₂ (a / b)⌋` for positive naturals `a`, `b`. -/
def ilog2Frac (a b : ℕ) : ℤ :=
  if b ≤ a then (natLog2 (a / b) : ℤ)
  else
    let u := natLog2 (b / a)
    if b ≤ a * 2 ^ u then -(u : ℤ) else -(u : ℤ) - 1

/-- The IEEE-754 binary64 value nearest to `num / den`, as a dyadic pair
`(mantissa, exponent)` with value `mantissa * 2^exponent`: round to
nearest, ties to even, 53-bit significand, exponent clamped at `-1074` so
that subnormals round at their reduced precision (the mantissa rounds to
`0` on underflow).  Exponent overflow is left to `dyadicOverflows`. -/
def nearestDouble (num : ℤ) (den : ℕ) : ℤ × ℤ :=
  if num = 0 ∨ den = 0 then (0, 0)
  else
    let a := num.natAbs
    let e : ℤ := max (ilog2Frac a den - 52) (-1074)
    let n := if 0 ≤ e then roundNearestEven a (den * 2 ^ e.toNat)
             else roundNearestEven (a * 2 ^ (-e).toNat) den
    (if num < 0 then -(n : ℤ) else (n : ℤ), e)

/-- Round an exact dyadic value `m * 2^e` to binary64 precision (a single
rounding, subnormal-aware): this is how the exact product of two doubles
becomes the IEEE product. -/
def roundDyadicIEEE (m e : ℤ) : ℤ × ℤ :=
  if m = 0 then (0, 0)
  else
    let a := m.natAbs
    let t : ℤ := natLog2 a
    let s : ℤ := max (t - 52) (-1074 - e)
    if s ≤ 0 then (m, e)
    else
      let n := roundNearestEven a (2 ^ s.toNat)
      (if m < 0 then -(n : ℤ) else (n : ℤ), e + s)

/-- Whether a rounded dyadic magnitude reaches `2^1024` — the condition
under which CPython's int-to-float conversion raises `OverflowError`. -/
def dyadicOverflows (d : ℤ × ℤ) : Bool :=
  if 0 ≤ d.2 then decide (2 ^ 1024 ≤ d.1.natAbs * 2 ^ d.2.toNat)
  else decide (2 ^ 1024 * 2 ^ (-d.2).toNat ≤ d.1.natAbs)

/-- Python `int()` applied to a (finite) double: truncation toward zero of
the dyadic value, in integer arithmetic (`Int.tdiv` truncates toward
zero). -/
def truncDyadic (d : ℤ × ℤ) : ℤ :=
  if 0 ≤ d.2 then d.1 * 2 ^ d.2.toNat else d.1.tdiv (2 ^ (-d.2).toNat)

/-- The exact rational value of a dyadic pair. -/
def dyadicToRat (d : ℤ × ℤ) : ℚ :=
  (d.1 : ℚ) * 2 ^ d.2

/-- Python `int(q)` on an exact rational: truncation toward zero. -/
def ratTrunc (q : ℚ) : ℤ :=
  if 0 ≤ q then ⌊q⌋ else ⌈q⌉

/-- Python `float(v)`: the int-to-double conversion performed when an int
is multiplied by a float. -/
def floatOfInt (v : ℤ) : ℤ × ℤ :=
  nearestDouble v 1

/-- The binary64 value of `10 ** -k` (CPython evaluates an int power with
negative exponent in floating point; for powers of ten it produces the
correctly rounded value modelled here). -/
def floatPow10Neg (k : ℕ) : ℤ × ℤ :=
  nearestDouble 1 (10 ^ k)

/-- The double-precision product `float(v) * (10 ** -k)`: both operands
rounded to binary64, their exact product rounded once more. -/
def floatProduct (v : ℤ) (k : ℕ) : ℤ × ℤ :=
  let fv := floatOfInt v
  let p := floatPow10Neg k
  roundDyadicIEEE (fv.1 * p.1) (fv.2 + p.2)

/-- `status._resolve_value_multiplier`: `None` value propagates; a `None`
multiplier defaults to `0`; `int(value * (10 ** multiplier))` is exact
integer arithmetic for a non-negative multiplier and the truncated
double-precision product for a negative one, raising `OverflowError`
(modelled as `.error`) when `value` exceeds the double range. -/
def resolve_value_multiplier (value : Option ℤ) (multiplier : Option ℤ) :
    Except String (Option ℤ) :=
  match value with
  | none => .ok none
  | some v =>
    let m := multiplier.getD 0
    if 0 ≤ m then .ok (some (v * 10 ^ m.toNat))
    else if dyadicOverflows (floatOfInt v) then .error "OverflowError"
    else .ok (some (truncDyadic (floatProduct v (-m).toNat)))

/-!
## Step lifecycle (`models.StepInfo` and the tracker of spec §4.4)
-/

/-- `models.StepInfo`: per-step record with `started_at`/`completed_at`
timestamps. -/
structure StepInfo where
  started_at : Option ℤ := none
  completed_at : Option ℤ := none
  deriving DecidableEq, Repr

/-- `models.StepInfo.get_step_status`: both timestamps falsy → `PENDING`;
`started_at` only → `ACTIVE`; `completed_at` set → `RESOLVED`. -/
def StepInfo.get_step_status (si : StepInfo) : StepStatus :=
  if si.completed_at.isSome then .RESOLVED
  else if si.started_at.isSome then .ACTIVE
  else .PENDING

/-- Modelled from the spec: the two transitions of the Step Lifecycle
Tracker (spec §4.4) — the step's listener acquires an enable marker
(`start`), or the step's listener matches and fires (`resolve`); the
mutating module (`action.py` / the request handler) is not part of the
provided sources. -/
inductive TrackerOp where
  | start (now : ℤ)
  | resolve (now : ℤ)
  deriving DecidableEq, Repr

/-- Modelled from the spec: applying one tracker transition to a step's
record — `start` stamps `started_at` for a pending step, `resolve` stamps
`completed_at` for an active step; "attempting to resolve an
already-resolved or never-started step is a no-op (idempotent) rather than
an error" (spec §4.4), and no transition ever clears a timestamp. -/
def applyTrackerOp (si : StepInfo) : TrackerOp → StepInfo
  | .start now =>
    if si.started_at.isSome then si else { si with started_at := some now }
  | .resolve now =>
    if si.started_at.isSome && !si.completed_at.isSome then
      { si with completed_at := some now }
    else si

/-- A sequence of tracker transitions applied in order. -/
def applyTrackerOps (si : StepInfo) (ops : List TrackerOp) : StepInfo :=
  ops.foldl applyTrackerOp si

/-- The PENDING → ACTIVE → RESOLVED progression as a numeric rank. -/
def statusRank : StepStatus → ℕ
  | .PENDING => 0
  | .ACTIVE => 1
  | .RESOLVED => 2

/-!
## Serialisable site model (`models.py`)

The envoy-side classes and their serialisable mirrors carry several dozen
copied fields; the embedding keeps the identifying fields plus a
representative payload field per class — the conversion structure
(`None` propagation, and `from_site_der_status` discarding its input) is
translated verbatim.
-/

/-- `envoy.server.model.site.SiteDERStatus` (trimmed). -/
structure EnvoySiteDERStatus where
  site_der_status_id : ℤ
  changed_time : ℤ
  manufacturer_status : Option String
  deriving DecidableEq, Repr

/-- `models.SiteDERStatus` (trimmed). -/
structure SiteDERStatus where
  site_der_status_id : ℤ
  changed_time : ℤ
  manufacturer_status : Option String
  deriving DecidableEq, Repr

/-- `models.SiteDERStatus.from_site_der_status`, translated verbatim:
`if status is None: return None` and then `return None` on the remaining
(non-None) branch as well. -/
def SiteDERStatus.from_site_der_status (status : Option EnvoySiteDERStatus) :
    Option SiteDERStatus :=
  match status with
  | none => none
  | some _ => none

/-- `envoy.server.model.site.SiteDERRating` (trimmed). -/
structure EnvoySiteDERRating where
  site_der_rating_id : ℤ
  site_der_id : ℤ
  max_w_value : ℤ
  max_w_multiplier : ℤ
  deriving DecidableEq, Repr

/-- `models.SiteDERRating` (trimmed). -/
structure SiteDERRating where
  site_der_rating_id : ℤ
  site_der_id : ℤ
  max_w_value : ℤ
  max_w_multiplier : ℤ
  deriving DecidableEq, Repr

/-- `models.SiteDERRating.from_site_der_rating`: `None` propagates,
otherwise the fields are copied. -/
def SiteDERRating.from_site_der_rating (rating : Option EnvoySiteDERRating) :
    Option SiteDERRating :=
  match rating with
  | none => none
  | some r =>
    some { site_der_rating_id := r.site_der_rating_id,
           site_der_id := r.site_der_id,
           max_w_value := r.max_w_value,
           max_w_multiplier := r.max_w_multiplier }

/-- `envoy.server.model.site.SiteDERSetting` (trimmed). -/
structure EnvoySiteDERSetting where
  site_der_setting_id : ℤ
  site_der_id : ℤ
  max_w_value : ℤ
  max_w_multiplier : ℤ
  grad_w : ℤ
  deriving DecidableEq, Repr

/-- `models.SiteDERSetting` (trimmed). -/
structure SiteDERSetting where
  site_der_setting_id : ℤ
  site_der_id : ℤ
  max_w_value : ℤ
  max_w_multiplier : ℤ
  grad_w : ℤ
  deriving DecidableEq, Repr

/-- `models.SiteDERSetting.from_site_der_setting`: `None` propagates,
otherwise the fields are copied. -/
def SiteDERSetting.from_site_der_setting (setting : Option EnvoySiteDERSetting) :
    Option SiteDERSetting :=
  match setting with
  | none => none
  | some s =>
    some { site_der_setting_id := s.site_der_setting_id,
           site_der_id := s.site_der_id,
           max_w_value := s.max_w_value,
           max_w_multiplier := s.max_w_multiplier,
           grad_w := s.grad_w }

/-- `envoy.server.model.site.SiteDERAvailability` (trimmed). -/
structure EnvoySiteDERAvailability where
  site_der_availability_id : ℤ
  site_der_id : ℤ
  availability_duration_sec : Option ℤ
  deriving DecidableEq, Repr

/-- `models.SiteDERAvailability` (trimmed). -/
structure SiteDERAvailability where
  site_der_availability_id : ℤ
  site_der_id : ℤ
  availability_duration_sec : Option ℤ
  deriving DecidableEq, Repr

/-- `models.SiteDERAvailability.from_site_der_availability`: `None`
propagates, otherwise the fields are copied. -/
def SiteDERAvailability.from_site_der_availability
    (availability : Option EnvoySiteDERAvailability) : Option SiteDERAvailability :=
  match availability with
  | none => none
  | some a =>
    some { site_der_availability_id := a.site_der_availability_id,
           site_der_id := a.site_der_id,
           availability_duration_sec := a.availability_duration_sec }

/-- `envoy.server.model.site.SiteDER` (trimmed). -/
structure EnvoySiteDER where
  site_der_id : ℤ
  site_id : ℤ
  created_time : ℤ
  changed_time : ℤ
  site_der_rating : Option EnvoySiteDERRating
  site_der_setting : Option EnvoySiteDERSetting
  site_der_availability : Option EnvoySiteDERAvailability
  site_der_status : Option EnvoySiteDERStatus
  deriving DecidableEq, Repr

/-- `models.SiteDER` (trimmed): the serialisable site DER record. -/
structure SiteDER where
  site_der_id : ℤ
  site_id : ℤ
  created_time : ℤ
  changed_time : ℤ
  site_der_rating : Option SiteDERRating
  site_der_setting : Option SiteDERSetting
  site_der_availability : Option SiteDERAvailability
  site_der_status : Option SiteDERStatus
  deriving DecidableEq, Repr

/-- `models.SiteDER.from_site_der`: copy the identifying fields and convert
each sub-record through its `from_*` classmethod. -/
def SiteDER.from_site_der (site_der : EnvoySiteDER) : SiteDER :=
  { site_der_id := site_der.site_der_id,
    site_id := site_der.site_id,
    created_time := site_der.created_time,
    changed_time := site_der.changed_time,
    site_der_rating := SiteDERRating.from_site_der_rating site_der.site_der_rating,
    site_der_setting := SiteDERSetting.from_site_der_setting site_der.site_der_setting,
    site_der_availability :=
      SiteDERAvailability.from_site_der_availability site_der.site_der_availability,
    site_der_status := SiteDERStatus.from_site_der_status site_der.site_der_status }

/-!
## The canonical overlapping-interval fixture

The fixed interval set of `test_generate_offset_watt_values`, with times in
seconds relative to `BASIS` (the ±9999-day bounds of the first record are
±863913600 s) and last-changed timestamps encoded order-preservingly
(2020-01-01 → 0, 2021-01-01 → 100, 2021-01-01 09:00 → 109,
2025-01-01 → 500).  Archive records are `archived`, live
`DynamicOperatingEnvelope` rows are not. -/
def fixtureRecords : List TimelineInterval :=
  [ ⟨-863913600, 863913600, ⟨true, 100, some 1, some 11⟩⟩,
    ⟨0, 20, ⟨false, 100, some 2, some 22⟩⟩,
    ⟨0, 40, ⟨false, 0, some 3, some 33⟩⟩,
    ⟨20, 40, ⟨false, 109, some 4, some 44⟩⟩,
    ⟨20, 40, ⟨true, 500, some 5, some 55⟩⟩,
    ⟨20, 60, ⟨true, 0, some 6, some 66⟩⟩ ]

/-!
## Concrete instances used to exercise the engine
-/

/-- An enabled "wait" listener for `step`, enabled at `t0` with duration
`D` (its `wait_start_timestamp` parameter equals its enable time, as set by
the enable-listeners action). -/
def waitListener (step : String) (t0 D : ℤ) : Listener :=
  { step := step,
    event := { type := "wait",
               parameters := [("wait_start_timestamp", .num t0),
                              ("duration_seconds", .num D)] },
    actions := [],
    enabled_time := some t0 }

/-- A procedure holding a single enabled wait listener and no step status
yet. -/
def waitProc (step : String) (t0 D : ℤ) : ActiveTestProcedure :=
  { listeners := [waitListener step t0 D], step_status := [], finished_zip_data := none }

/-- Whether one periodic pass at `now` leaves `step` marked `RESOLVED`
(false as well when the pass raises). -/
def stepResolvedAfter (now : ℤ) (p : ActiveTestProcedure) (step : String) : Bool :=
  match periodic_task_pass now p with
  | .ok p2 => p2.step_status.lookup step == some .RESOLVED
  | .error _ => false

/-- An enabled "wait" listener whose parameters are missing
`duration_seconds`. -/
def waitListenerNoDuration (step : String) (t0 : ℤ) : Listener :=
  { step := step,
    event := { type := "wait",
               parameters := [("wait_start_timestamp", .num t0)] },
    actions := [],
    enabled_time := some t0 }

/-- An enabled "wait" listener whose parameters are missing
`wait_start_timestamp`. -/
def waitListenerNoStart (step : String) (D : ℤ) : Listener :=
  { step := step,
    event := { type := "wait", parameters := [("duration_seconds", .num D)] },
    actions := [],
    enabled_time := some 0 }

/-- A finished procedure (`finished_zip_data` set) still holding an enabled
wait listener whose wait period will expire. -/
def finishedWaitProc : ActiveTestProcedure :=
  { listeners := [waitListener "s" 0 5],
    step_status := [("s", .ACTIVE)],
    finished_zip_data := some 0 }

/-- A `GET /dcap` request event. -/
def eventGetDcap : Event :=
  { type := "GET-request-received", parameters := [("endpoint", .str "/dcap")] }

/-- An enabled listener for `GET /edev`. -/
def listenerEdev : Listener :=
  { step := "A",
    event := { type := "GET-request-received", parameters := [("endpoint", .str "/edev")] },
    actions := [],
    enabled_time := some 0 }

/-- An enabled listener for `GET /dcap`. -/
def listenerDcap : Listener :=
  { step := "B",
    event := eventGetDcap,
    actions := [],
    enabled_time := some 0 }

/-- A procedure with the `/edev` listener ahead of the `/dcap` listener. -/
def procEdevDcap : ActiveTestProcedure :=
  { listeners := [listenerEdev, listenerDcap], step_status := [], finished_zip_data := none }

/-!
# Theorems
-/

/-- C2: over the canonical overlapping-interval fixture, querying with
interval length 20 s over the window `[BASIS, BASIS + 50 s)` with the
import-limit and export-limit extractors yields exactly two data streams of
3 = ceil(50/20) slices each, with values `[[2, 4, 1], [22, 44, 11]]`. -/
theorem generate_offset_watt_values_canonical_fixture :
    generate_offset_watt_values fixtureRecords 0 50 20
        [fun e => e.import_limit_active_watts, fun e => e.export_limit_watts] =
      [[some 2, some 4, some 1], [some 22, some 44, some 11]] ∧
    sliceCount 0 50 20 = 3 ∧
    (generate_offset_watt_values fixtureRecords 0 50 20
        [fun e => e.import_limit_active_watts, fun e => e.export_limit_watts]).length = 2 := by
  refine ⟨by decide, by decide, by decide⟩

/-- C4: when the globally-evaluated "checks passing" predicate is false,
`handle_event` (composed with the checks, per spec §4.2) matches no
listener and leaves the test-procedure state unchanged, whatever the event
and listener set. -/
theorem handle_event_checked_checks_failing (ev : Event) (now : ℤ)
    (p : ActiveTestProcedure) :
    handle_event_checked false ev now p = (none, p) := by
  rfl

/-- Truncation toward zero is the identity on integer casts. -/
theorem ratTrunc_intCast (n : ℤ) : ratTrunc (n : ℚ) = n := by
  unfold ratTrunc
  split <;> simp

/-- Truncation toward zero of an exact integer quotient is `Int.tdiv`. -/
theorem ratTrunc_intCast_div_natCast (a : ℤ) (b : ℕ) (hb : 0 < b) :
    ratTrunc ((a : ℚ) / (b : ℚ)) = a.tdiv b := by
  rcases le_or_lt 0 a with ha | ha
  · rw [ratTrunc, if_pos (by positivity), Rat.floor_intCast_div_natCast,
      Int.tdiv_eq_ediv ha (Int.ofNat_nonneg b)]
  · have hb' : (0 : ℚ) < (b : ℚ) := by exact_mod_cast hb
    have hq : ((a : ℚ) / (b : ℚ)) < 0 :=
      div_neg_of_neg_of_pos (by exact_mod_cast ha) hb'
    rw [ratTrunc, if_neg (not_le.mpr hq)]
    have h1 : ((a : ℚ) / (b : ℚ)) = -(((-a : ℤ) : ℚ) / (b : ℚ)) := by
      push_cast
      ring
    rw [h1, Int.ceil_neg, Rat.floor_intCast_div_natCast]
    have h2 : a.tdiv b = -((-a).tdiv b) := by
      rw [Int.neg_tdiv]
      ring
    rw [h2, Int.tdiv_eq_ediv (by omega) (Int.ofNat_nonneg b)]

/-- Truncation toward zero of a dyadic value, as computed by `truncDyadic`
in integer arithmetic, is the `ratTrunc` (floor toward zero) of its exact
rational value — the `int()` conversion truncates, it never rounds. -/
theorem truncDyadic_eq_ratTrunc (d : ℤ × ℤ) :
    truncDyadic d = ratTrunc (dyadicToRat d) := by
  rcases d with ⟨m, e⟩
  unfold truncDyadic dyadicToRat
  by_cases he : (0 : ℤ) ≤ e
  · rw [if_pos he]
    have hcast : (m : ℚ) * 2 ^ e = ((m * 2 ^ e.toNat : ℤ) : ℚ) := by
      conv_lhs => rw [show e = (e.toNat : ℤ) by omega]
      rw [zpow_natCast]
      push_cast
      ring
    rw [hcast, ratTrunc_intCast]
  · rw [if_neg he]
    have hpow : (2 : ℚ) ^ e = ((2 ^ (-e).toNat : ℕ) : ℚ)⁻¹ := by
      conv_lhs => rw [show e = -(((-e).toNat : ℕ) : ℤ) by omega]
      rw [zpow_neg, zpow_natCast]
      push_cast
      ring
    have hcast : (m : ℚ) * 2 ^ e = (m : ℚ) / ((2 ^ (-e).toNat : ℕ) : ℚ) := by
      rw [hpow]
      ring
    rw [hcast, ratTrunc_intCast_div_natCast m _ (pow_pos (by norm_num) _)]
    congr 1
    push_cast
    ring

/-- Counterexample for C7: the claimed exact truncation `v * 10^m` fails on
the double-precision path.  At `(123456789012345678, -1)` the code returns
`12345678901234568` (the int rounds to `...680` as a double, the product
rounds again), while truncation toward zero of the exact `v / 10` is
`12345678901234567`; and a value beyond the double range raises
`OverflowError` instead of resolving at all. -/
theorem resolve_value_multiplier_float_counterexample :
    resolve_value_multiplier (some 123456789012345678) (some (-1)) =
      .ok (some 12345678901234568) ∧
    (123456789012345678 : ℤ).tdiv 10 = 12345678901234567 ∧
    ((12345678901234568 : ℤ) = 12345678901234567 → False) ∧
    resolve_value_multiplier (some (10 ^ 400)) (some (-1)) =
      .error "OverflowError" := by
  exact ⟨rfl, by decide, by decide, rfl⟩

/-- C7 (amended): a `None` value resolves to `None`; a `None` or
non-negative multiplier yields exactly `value * 10^multiplier` in integer
arithmetic (`None` treated as `0`); for a negative multiplier the product
is evaluated in IEEE-754 double precision and the result is that double
truncated toward zero (never rounded) — exact truncation of the
double-precision product rather than of `value * 10^multiplier` itself. -/
theorem resolve_value_multiplier_semantics (v m : ℤ) :
    resolve_value_multiplier none (some m) = .ok none ∧
    resolve_value_multiplier (some v) none = .ok (some v) ∧
    (0 ≤ m →
      resolve_value_multiplier (some v) (some m) = .ok (some (v * 10 ^ m.toNat))) ∧
    (m < 0 → ¬dyadicOverflows (floatOfInt v) = true →
      resolve_value_multiplier (some v) (some m) =
        .ok (some (ratTrunc (dyadicToRat (floatProduct v (-m).toNat))))) := by
  refine ⟨rfl, ?_, ?_, ?_⟩
  · show Except.ok (some (v * 10 ^ (0 : ℤ).toNat)) = Except.ok (some v)
    norm_num
  · intro hm
    simp only [resolve_value_multiplier, Option.getD_some]
    rw [if_pos hm]
  · intro hm hov
    simp only [resolve_value_multiplier, Option.getD_some]
    rw [if_neg (by omega), if_neg hov, truncDyadic_eq_ratTrunc]

/-- Witness for C7 (amended): `(123, -1)` and `(129, -1)` both resolve to
`12` (the double-precision path truncates toward zero here, agreeing with
exact truncation); `(123, None)` gives `123`, `(123, 2)` gives `12300`,
and the result at `(123, -1)` is the truncation of the double product. -/
theorem resolve_value_multiplier_semantics_witness :
    resolve_value_multiplier (some 123) (some (-1)) = .ok (some 12) ∧
    resolve_value_multiplier (some 129) (some (-1)) = .ok (some 12) ∧
    resolve_value_multiplier (some 123) none = .ok (some 123) ∧
    resolve_value_multiplier (some 123) (some 2) = .ok (some 12300) ∧
    resolve_value_multiplier (some 123) (some (-1)) =
      .ok (some (ratTrunc (dyadicToRat (floatProduct 123 1)))) := by
  refine ⟨rfl, rfl, ?_, ?_, ?_⟩
  · exact (resolve_value_multiplier_semantics 123 0).2.1
  · have h := (resolve_value_multiplier_semantics 123 2).2.2.1 (by norm_num)
    rw [h]
    rfl
  · exact (resolve_value_multiplier_semantics 123 (-1)).2.2.2 (by norm_num) (by decide)

/-- C10: `SiteDERStatus.from_site_der_status` returns `none` on every
input, including a non-`None` envoy status, so every `SiteDER` produced by
`SiteDER.from_site_der` carries `site_der_status = none`. -/
theorem from_site_der_status_always_none :
    (∀ s : Option EnvoySiteDERStatus, SiteDERStatus.from_site_der_status s = none) ∧
    (∀ d : EnvoySiteDER, (SiteDER.from_site_der d).site_der_status = none) := by
  constructor
  · intro s
    cases s <;> rfl
  · intro d
    show SiteDERStatus.from_site_der_status d.site_der_status = none
    cases h : d.site_der_status <;> rfl

/-- One selection step of `highest_priority_entity` keeps an active record
iff one of the two candidates is active. -/
theorem beats_step_active (x best : TimelineEntity) :
    ((if beats x best then x else best).archived = false) ↔
      (x.archived = false ∨ best.archived = false) := by
  by_cases hx : x.archived <;> by_cases hb : best.archived <;>
    simp only [beats, hx, hb] <;> split <;> simp_all

/-- The fold underlying `highest_priority_entity` returns a member of the
candidate list. -/
theorem hpe_fold_mem : ∀ (rest : List TimelineEntity) (e : TimelineEntity),
    rest.foldl (fun best x => if beats x best then x else best) e ∈ e :: rest := by
  intro rest
  induction rest with
  | nil => intro e; simp
  | cons x xs ih =>
    intro e
    simp only [List.foldl_cons]
    rcases List.mem_cons.mp (ih (if beats x e then x else e)) with h | h
    · rw [h]
      split <;> simp
    · simp [h]

/-- The fold underlying `highest_priority_entity` returns an active record
whenever one of the candidates is active. -/
theorem hpe_fold_active : ∀ (rest : List TimelineEntity) (e : TimelineEntity),
    (e.archived = false ∨ ∃ x ∈ rest, x.archived = false) →
    (rest.foldl (fun best x => if beats x best then x else best) e).archived = false := by
  intro rest
  induction rest with
  | nil =>
    intro e h
    simpa using h
  | cons x xs ih =>
    intro e h
    simp only [List.foldl_cons]
    apply ih
    rcases h with h | h
    · exact Or.inl ((beats_step_active x e).mpr (Or.inr h))
    · rcases h with ⟨y, hy, hya⟩
      rcases List.mem_cons.mp hy with rfl | hy'
      · exact Or.inl ((beats_step_active y e).mpr (Or.inl hya))
      · exact Or.inr ⟨y, hy', hya⟩

/-- When every candidate is archived, the fold underlying
`highest_priority_entity` returns a record of maximal last-changed
timestamp. -/
theorem hpe_fold_max : ∀ (rest : List TimelineEntity) (e : TimelineEntity),
    (∀ x ∈ e :: rest, x.archived = true) →
    ∀ x ∈ e :: rest,
      x.changed_time ≤
        (rest.foldl (fun best x => if beats x best then x else best) e).changed_time := by
  intro rest
  induction rest with
  | nil =>
    intro e _ x hx
    simp only [List.mem_singleton.mp (by simpa using hx)]
    simp
  | cons y ys ih =>
    intro e hall x hx
    simp only [List.foldl_cons]
    have he : e.archived = true := hall e (by simp)
    have hy : y.archived = true := hall y (by simp)
    have hstep : (if beats y e then y else e) = y ∨ (if beats y e then y else e) = e := by
      split <;> simp
    have hall' : ∀ z ∈ (if beats y e then y else e) :: ys, z.archived = true := by
      intro z hz
      rcases List.mem_cons.mp hz with rfl | hz'
      · rcases hstep with h | h <;> rw [h] <;> assumption
      · exact hall z (by simp [hz'])
    have hbeq : beats y e = decide (e.changed_time < y.changed_time) := by
      simp [beats, hy, he]
    have hstep_ge_e : e.changed_time ≤ (if beats y e then y else e).changed_time := by
      rw [hbeq]
      by_cases hcmp : e.changed_time < y.changed_time
      · rw [if_pos (decide_eq_true hcmp)]
        exact le_of_lt hcmp
      · rw [if_neg (by simpa using hcmp)]
    have hstep_ge_y : y.changed_time ≤ (if beats y e then y else e).changed_time := by
      rw [hbeq]
      by_cases hcmp : e.changed_time < y.changed_time
      · rw [if_pos (decide_eq_true hcmp)]
      · rw [if_neg (by simpa using hcmp)]
        exact le_of_not_lt hcmp
    have hhead := ih (if beats y e then y else e) hall'
      (if beats y e then y else e) (by simp)
    rcases List.mem_cons.mp hx with rfl | hx'
    · exact le_trans hstep_ge_e hhead
    · rcases List.mem_cons.mp hx' with rfl | hx''
      · exact le_trans hstep_ge_y hhead
      · exact ih (if beats y e then y else e) hall' x (by simp [hx''])

/-- C1: over any candidate collection holding at least one active
(non-archived) record, `highest_priority_entity` returns an active member
of the collection — whatever the order of the collection and whatever the
archived records' timestamps; when every record is archived it returns a
member with the greatest last-changed timestamp; and on the empty
collection it fails with the "no entities" error instead of returning
none. -/
theorem highest_priority_entity_priority (l : List TimelineEntity) :
    ((∃ x ∈ l, x.archived = false) →
      ∃ w, highest_priority_entity l = .ok w ∧ w.archived = false ∧ w ∈ l) ∧
    ((l ≠ [] ∧ ∀ x ∈ l, x.archived = true) →
      ∃ w, highest_priority_entity l = .ok w ∧ w ∈ l ∧
        ∀ x ∈ l, x.changed_time ≤ w.changed_time) ∧
    highest_priority_entity ([] : List TimelineEntity) = .error "no entities" := by
  refine ⟨?_, ?_, rfl⟩
  · intro h
    match l with
    | [] => simp at h
    | e :: rest =>
      refine ⟨rest.foldl (fun best x => if beats x best then x else best) e, rfl, ?_, ?_⟩
      · apply hpe_fold_active
        rcases h with ⟨x, hx, hxa⟩
        rcases List.mem_cons.mp hx with rfl | hx'
        · exact Or.inl hxa
        · exact Or.inr ⟨x, hx', hxa⟩
      · exact hpe_fold_mem rest e
  · intro h
    match l with
    | [] => exact absurd rfl h.1
    | e :: rest =>
      exact ⟨rest.foldl (fun best x => if beats x best then x else best) e, rfl,
        hpe_fold_mem rest e, hpe_fold_max rest e h.2⟩

/-- Witness for C1: a mixed collection of one active and two archived
records (the active one listed last, with the stalest timestamp) resolves
to an active record, and the empty collection errors. -/
theorem highest_priority_entity_priority_witness :
    (∃ w, highest_priority_entity
        [⟨true, 1000, none, none⟩, ⟨true, 2000, none, none⟩, ⟨false, 0, none, none⟩] =
          .ok w ∧ w.archived = false ∧
            w ∈ [⟨true, 1000, none, none⟩, ⟨true, 2000, none, none⟩,
                  (⟨false, 0, none, none⟩ : TimelineEntity)]) ∧
    highest_priority_entity ([] : List TimelineEntity) = .error "no entities" :=
  ⟨(highest_priority_entity_priority
      [⟨true, 1000, none, none⟩, ⟨true, 2000, none, none⟩, ⟨false, 0, none, none⟩]).1
      ⟨⟨false, 0, none, none⟩, by decide, rfl⟩,
    (highest_priority_entity_priority []).2.2⟩

/-- `List.find?` returns an element satisfying the predicate, **and** every
element strictly before it in list order fails the predicate. -/
theorem find?_first_index {α : Type} (q : α → Bool) :
    ∀ (xs : List α) (a : α), xs.find? q = some a →
      q a = true ∧ ∃ i, ∃ h : i < xs.length, xs.get ⟨i, h⟩ = a ∧
        ∀ j, ∀ hj : j < xs.length, j < i → q (xs.get ⟨j, hj⟩) = false := by
  intro xs
  induction xs with
  | nil => intro a h; simp at h
  | cons x rest ih =>
    intro a h
    rw [List.find?_cons] at h
    rcases hqx : q x with hf | ht
    · rw [hqx] at h
      obtain ⟨hqa, i, hi, hget, hfirst⟩ := ih a h
      refine ⟨hqa, i + 1, by simpa using Nat.succ_lt_succ hi, by simpa using hget, ?_⟩
      intro j hj hlt
      match j with
      | 0 => simpa using hqx
      | j + 1 =>
        have hj' : j < rest.length := by simpa using Nat.lt_of_succ_lt_succ hj
        simpa using hfirst j hj' (Nat.lt_of_succ_lt_succ hlt)
    · rw [hqx] at h
      obtain rfl : x = a := by simpa using h
      exact ⟨hqx, 0, by simp, by simp, fun j hj hlt => absurd hlt (Nat.not_lt_zero j)⟩

/-- C3: `handle_event` returns the first listener in listener-list order
that is both enabled and equal in event to the incoming event; the returned
listener always has a non-null enable marker, and when no enabled listener
matches the result is `none`. -/
theorem handle_event_first_match (ev : Event) (now : ℤ)
    (p : ActiveTestProcedure) :
    (∀ l, (handle_event ev now p).1 = some l →
      l.enabled = true ∧ l.event = ev ∧ l.enabled_time ≠ none ∧
        ∃ i, ∃ h : i < p.listeners.length, p.listeners.get ⟨i, h⟩ = l ∧
          ∀ j, ∀ hj : j < p.listeners.length, j < i →
            ¬((p.listeners.get ⟨j, hj⟩).enabled = true ∧
              (p.listeners.get ⟨j, hj⟩).event = ev)) ∧
    ((∀ l ∈ p.listeners, ¬(l.enabled = true ∧ l.event = ev)) →
      (handle_event ev now p).1 = none) := by
  have hfst : (handle_event ev now p).1 = matchListener p.listeners ev := by
    unfold handle_event
    cases matchListener p.listeners ev <;> rfl
  constructor
  · intro l hl
    rw [hfst] at hl
    obtain ⟨hq, i, hi, hget, hfirst⟩ := find?_first_index _ p.listeners l hl
    have hq' : l.enabled = true ∧ l.event = ev := by simpa using hq
    refine ⟨hq'.1, hq'.2, ?_, i, hi, hget, ?_⟩
    · intro hnone
      simp [Listener.enabled, hnone] at hq'
    · intro j hj hlt hcontra
      have hj0 := hfirst j hj hlt
      rw [hcontra.1, hcontra.2] at hj0
      simp at hj0
  · intro hall
    rw [hfst]
    unfold matchListener
    rw [List.find?_eq_none]
    intro l hl
    intro hq
    exact hall l hl (by simpa using hq)

/-- Witness for C3: with listeners `[A(/edev), B(/dcap)]` and a `/dcap`
event, `handle_event` returns the listener at index 1 (`B`), which is
enabled and matches. -/
theorem handle_event_first_match_witness :
    (handle_event eventGetDcap 0 procEdevDcap).1 = some listenerDcap ∧
      listenerDcap.enabled = true ∧ listenerDcap.event = eventGetDcap := by
  have h : (handle_event eventGetDcap 0 procEdevDcap).1 = some listenerDcap := by
    decide
  have happ := (handle_event_first_match eventGetDcap 0 procEdevDcap).1 listenerDcap h
  exact ⟨h, happ.1, happ.2.1⟩

/-- Evaluation of one periodic pass over a single enabled wait listener:
the step resolves exactly when the wait has expired. -/
theorem periodic_task_pass_waitProc_eval (t t0 D : ℤ) (step : String) :
    periodic_task_pass t (waitProc step t0 D) =
      if waitExpired t t0 D then
        .ok { listeners := [waitListener step t0 D],
              step_status := [(step, .RESOLVED)], finished_zip_data := none }
      else .ok (waitProc step t0 D) := by
  by_cases hw : waitExpired t t0 D <;>
    simp [periodic_task_pass, periodicTaskGo, waitProc, waitListener,
      Listener.enabled, hw, apply_actions, assocSetStatus, assocSet, List.lookup]

/-- C5: a "wait" listener with duration `D` enabled at `t0` is triggerable
at trigger time `t` exactly when `t - t0 ≥ D`: in particular it fires at
the inclusive boundary `t = t0 + D` and at no `t < t0 + D` (triggers that
precede the enable time included), and the periodic pass resolves its step
under exactly the same condition. -/
theorem wait_listener_triggerable_boundary (t t0 D : ℤ) (step : String) :
    (waitExpired t t0 D = true ↔ D ≤ t - t0) ∧
    waitExpired (t0 + D) t0 D = true ∧
    (t < t0 + D → waitExpired t t0 D = false) ∧
    (stepResolvedAfter t (waitProc step t0 D) step = true ↔ D ≤ t - t0) := by
  refine ⟨by simp [waitExpired], ?_, ?_, ?_⟩
  · simp only [waitExpired, decide_eq_true_eq]
    omega
  · intro h
    simp only [waitExpired, decide_eq_false_iff_not]
    omega
  · unfold stepResolvedAfter
    rw [periodic_task_pass_waitProc_eval]
    by_cases hw : waitExpired t t0 D
    · rw [if_pos hw]
      have hD : D ≤ t - t0 := by simpa [waitExpired] using hw
      simp [List.lookup, hD]
    · rw [if_neg hw]
      have hD : ¬(D ≤ t - t0) := by simpa [waitExpired] using hw
      simp [waitProc, hD]

/-- Witness for C5: with `t0 = 0` and `D = 5`, the wait fires at `t = 5`
(the inclusive boundary, resolving the step) and not at `t = 4`. -/
theorem wait_listener_triggerable_boundary_witness :
    waitExpired (0 + 5) 0 5 = true ∧ waitExpired 4 0 5 = false ∧
      stepResolvedAfter 5 (waitProc "s" 0 5) "s" = true := by
  have h4 := wait_listener_triggerable_boundary 4 0 5 "s"
  have h5 := wait_listener_triggerable_boundary 5 0 5 "s"
  exact ⟨h4.2.1, h4.2.2.1 (by norm_num), h5.2.2.2.mpr (by norm_num)⟩

/-- Counterexample for C6: an enabled "wait" listener whose parameters
miss `duration_seconds` does not make the periodic pass produce "no match";
the pass raises `WaitEventError` (matching the `Raises:` documentation of
`periodic_task`), so it returns no `ok` state at all. -/
theorem periodic_task_missing_duration_counterexample :
    periodic_task_pass 100
        { listeners := [waitListenerNoDuration "s" 0], step_status := [],
          finished_zip_data := none } = .error .missingDuration ∧
    ∀ p2, periodic_task_pass 100
        { listeners := [waitListenerNoDuration "s" 0], step_status := [],
          finished_zip_data := none } ≠ .ok p2 := by
  refine ⟨rfl, ?_⟩
  intro p2 h
  rw [show periodic_task_pass 100
      { listeners := [waitListenerNoDuration "s" 0], step_status := [],
        finished_zip_data := none } =
      (.error .missingDuration : Except WaitEventError ActiveTestProcedure) from rfl] at h
  exact Except.noConfusion h

/-- C6 (amended): for every enabled "wait" listener, a missing
`wait_start_timestamp` parameter makes the periodic pass raise
`WaitEventError` ("missing start timestamp"), and a present start with a
missing `duration_seconds` parameter makes it raise `WaitEventError`
("missing duration") — the error propagates instead of the listener being
skipped. -/
theorem periodic_task_missing_wait_params_raise (now : ℤ) (l : Listener)
    (rest : List Listener) (ss : List (String × StepStatus)) (fz : Option Nat)
    (he : l.enabled = true) (hw : l.event.type = "wait") :
    (l.event.parameters.lookup "wait_start_timestamp" = none →
      periodic_task_pass now ⟨l :: rest, ss, fz⟩ = .error .missingStart) ∧
    (∀ ws : ℤ,
      l.event.parameters.lookup "wait_start_timestamp" = some (.num ws) →
      l.event.parameters.lookup "duration_seconds" = none →
      periodic_task_pass now ⟨l :: rest, ss, fz⟩ = .error .missingDuration) := by
  constructor
  · intro h
    simp [periodic_task_pass, periodicTaskGo, he, hw, h]
  · intro ws h1 h2
    simp [periodic_task_pass, periodicTaskGo, he, hw, h1, h2]

/-- Witness for C6 (amended): concrete enabled wait listeners missing the
start timestamp resp. the duration make the pass raise the corresponding
`WaitEventError`. -/
theorem periodic_task_missing_wait_params_raise_witness :
    periodic_task_pass 50 ⟨[waitListenerNoStart "t" 9], [], none⟩ =
        .error .missingStart ∧
    periodic_task_pass 50 ⟨[waitListenerNoDuration "t" 7], [], none⟩ =
        .error .missingDuration :=
  ⟨(periodic_task_missing_wait_params_raise 50 (waitListenerNoStart "t" 9)
      [] [] none rfl rfl).1 rfl,
    (periodic_task_missing_wait_params_raise 50 (waitListenerNoDuration "t" 7)
      [] [] none rfl rfl).2 7 rfl rfl⟩

/-- C8 (code evaluation): `finishedWaitProc` is finished
(`is_finished = true`), yet one periodic pass still applies the expired
wait listener and rewrites its step status to `RESOLVED` — the pass
mutates a finished procedure, contradicting the documented invariant. -/
theorem periodic_task_mutates_finished_procedure :
    finishedWaitProc.is_finished = true ∧
    periodic_task_pass 100 finishedWaitProc =
      .ok { listeners := finishedWaitProc.listeners,
            step_status := [("s", .RESOLVED)],
            finished_zip_data := finishedWaitProc.finished_zip_data } ∧
    [("s", StepStatus.RESOLVED)] ≠ finishedWaitProc.step_status := by
  exact ⟨rfl, rfl, by decide⟩

/-- One tracker transition never lowers the derived step status and never
clears a timestamp. -/
theorem applyTrackerOp_step (si : StepInfo) (op : TrackerOp) :
    statusRank si.get_step_status ≤ statusRank (applyTrackerOp si op).get_step_status ∧
    (∀ x, si.started_at = some x → (applyTrackerOp si op).started_at = some x) ∧
    (∀ x, si.completed_at = some x → (applyTrackerOp si op).completed_at = some x) := by
  rcases si with ⟨s, c⟩
  cases op with
  | start now =>
    cases s <;> cases c <;>
      simp [applyTrackerOp, StepInfo.get_step_status, statusRank]
  | resolve now =>
    cases s <;> cases c <;>
      simp [applyTrackerOp, StepInfo.get_step_status, statusRank]

/-- C9: along any sequence of tracker transitions the derived step status
is monotone in PENDING → ACTIVE → RESOLVED order: a RESOLVED step stays
RESOLVED, an ACTIVE step never returns to PENDING, and no transition ever
clears `started_at` or `completed_at`. -/
theorem step_status_monotonic (si : StepInfo) (ops : List TrackerOp) :
    statusRank si.get_step_status ≤ statusRank (applyTrackerOps si ops).get_step_status ∧
    (si.get_step_status = .RESOLVED →
      (applyTrackerOps si ops).get_step_status = .RESOLVED) ∧
    (si.get_step_status = .ACTIVE →
      (applyTrackerOps si ops).get_step_status ≠ .PENDING) ∧
    (∀ x, si.started_at = some x → (applyTrackerOps si ops).started_at = some x) ∧
    (∀ x, si.completed_at = some x → (applyTrackerOps si ops).completed_at = some x) := by
  have main : ∀ (ops : List TrackerOp) (si : StepInfo),
      statusRank si.get_step_status ≤
        statusRank (applyTrackerOps si ops).get_step_status ∧
      (∀ x, si.started_at = some x → (applyTrackerOps si ops).started_at = some x) ∧
      (∀ x, si.completed_at = some x →
        (applyTrackerOps si ops).completed_at = some x) := by
    intro ops
    induction ops with
    | nil => exact fun si => ⟨le_refl _, fun x h => h, fun x h => h⟩
    | cons op rest ih =>
      intro si
      have h1 := applyTrackerOp_step si op
      have h2 := ih (applyTrackerOp si op)
      exact ⟨le_trans h1.1 h2.1,
        fun x h => h2.2.1 x (h1.2.1 x h),
        fun x h => h2.2.2 x (h1.2.2 x h)⟩
  have hm := main ops si
  refine ⟨hm.1, ?_, ?_, hm.2.1, hm.2.2⟩
  · intro h
    have hr := hm.1
    rw [h] at hr
    cases hf : (applyTrackerOps si ops).get_step_status
    · rw [hf] at hr
      simp [statusRank] at hr
    · rw [hf] at hr
      simp [statusRank] at hr
    · rfl
  · intro h hcontra
    have hr := hm.1
    rw [h, hcontra] at hr
    simp [statusRank] at hr

/-- Witness for C9: a resolved step record stays RESOLVED after a further
start and resolve transition. -/
theorem step_status_monotonic_witness :
    (applyTrackerOps ⟨some 0, some 1⟩ [.start 5, .resolve 6]).get_step_status =
      .RESOLVED :=
  (step_status_monotonic ⟨some 0, some 1⟩ [.start 5, .resolve 6]).2.1 rfl

end CactusRunner
